import Mathlib

/-!
# Verification of the vim-clap filter/session core

A shallow embedding, in Lean 4, of the parts of the `maple` binary that the
specification talks about:

* the process-wide background job registry
  (`crates/maple_cli/src/stdio_server/session/mod.rs`:
  `BACKGROUND_JOBS`, `spawn_singleton_job`, `register_job_successfully`,
  `note_job_is_finished`);
* the per-session event loops
  (`Session::run_event_loop_with_debounce`,
  `Session::run_event_loop_without_debounce`) and the default
  `ClapProvider::on_create` handler;
* the `filter` subcommand (`crates/maple_cli/src/command/filter.rs`:
  `parse_bonus`, `Filter::generate_source`, `Filter::generate_par_source`,
  `Filter::get_bonuses`, `Filter::run`).

Modelling conventions:

* Rust `u64` job ids and hashes are modelled as `Nat`; no claim depends
  on 64-bit wrap-around.
* The registry `HashSet<u64>` is a `Finset Nat`; the global mutex makes its
  mutations totally ordered, so the registry is threaded as an explicit
  value through each operation.
* A `MethodCall` / `Call` payload is opaque to the event loop; it is
  modelled as a `Nat` token.
* Handlers are modelled as instantaneous; an event's timestamp (in
  milliseconds) is the moment the loop receives it.  Whether a provider's
  `on_typed` / `on_move` returns `Ok` or `Err` is an oracle function
  `Nat → Bool` supplied to the loop, since the loop only logs the result.
* A panic in a spawned future is modelled as the task aborting before the
  statement that follows the `.await` of that future runs.
-/

/-! ## Job registry (session/mod.rs lines 25-54) -/

/-- Embedding of `register_job_successfully`: with `BACKGROUND_JOBS` held
under the mutex, return `false` if `job_id` is already present, otherwise
insert it and return `true`.  The pair is (returned bool, registry after). -/
def register_job_successfully (job_id : Nat) (jobs : Finset Nat) :
    Bool × Finset Nat :=
  if job_id ∈ jobs then (false, jobs) else (true, insert job_id jobs)

/-- Embedding of `note_job_is_finished`: remove `job_id` from
`BACKGROUND_JOBS`. -/
def note_job_is_finished (job_id : Nat) (jobs : Finset Nat) : Finset Nat :=
  jobs.erase job_id

/-- Embedding of `spawn_singleton_job`: call `register_job_successfully`;
iff it returns `true`, a task running
`task_future.await; note_job_is_finished(job_id)` is spawned, otherwise the
future is dropped.  The pair is (task spawned?, registry after the call).
The spawned task's later effect on the registry is `run_spawned_task`. -/
def spawn_singleton_job (job_id : Nat) (jobs : Finset Nat) :
    Bool × Finset Nat :=
  register_job_successfully job_id jobs

/-- Outcome of awaiting the future inside the spawned task. -/
inductive TaskOutcome
  | completes
  | panics
deriving DecidableEq, Repr

/-- Effect on the registry of the task body
`task_future.await; note_job_is_finished(job_id)`: on normal completion of
the future the id is removed; if the future panics, the panic unwinds out
of the async block before `note_job_is_finished` runs (there is no guard or
catch in `spawn_singleton_job`), so the registry is left unchanged. -/
def run_spawned_task (job_id : Nat) (outcome : TaskOutcome)
    (jobs : Finset Nat) : Finset Nat :=
  match outcome with
  | .completes => note_job_is_finished job_id jobs
  | .panics => jobs

/-- Global state for reasoning about singleton jobs over time: the registry
contents together with the ids of the spawned tasks currently executing. -/
structure JobsState where
  jobs : Finset Nat
  active : List Nat
deriving DecidableEq

/-- An atomic step of the job subsystem: a call to `spawn_singleton_job`,
or a running task finishing (normally or by panic). -/
inductive JobStep
  | spawn (id : Nat)
  | finish (id : Nat) (panicked : Bool)
deriving DecidableEq, Repr

/-- Transition function: `spawn id` runs `spawn_singleton_job` and, iff a
task was spawned, records it as active; `finish id panicked` retires an
active task, updating the registry as `run_spawned_task` does. -/
def jobStep (s : JobsState) : JobStep → JobsState
  | .spawn id =>
      let p := spawn_singleton_job id s.jobs
      { jobs := p.2, active := if p.1 then id :: s.active else s.active }
  | .finish id panicked =>
      if id ∈ s.active then
        { jobs := run_spawned_task id (if panicked then .panics else .completes) s.jobs,
          active := s.active.erase id }
      else s

/-- The job subsystem starts with an empty registry and no running tasks. -/
def initialJobsState : JobsState := { jobs := ∅, active := [] }

/-- Run a sequence of job steps from the initial state. -/
def runJobSteps (steps : List JobStep) : JobsState :=
  steps.foldl jobStep initialJobsState

/-- The singleton invariant: no id has two active tasks, and every active
task's id is registered. -/
def JobsInv (s : JobsState) : Prop :=
  s.active.Nodup ∧ ∀ i ∈ s.active, i ∈ s.jobs

instance (s : JobsState) : Decidable (JobsInv s) :=
  inferInstanceAs (Decidable (s.active.Nodup ∧ ∀ i ∈ s.active, i ∈ s.jobs))

/-! ## Filter subcommand (command/filter.rs)

The `Filter` struct is embedded inside the `Maple` namespace because the
crate-level name `Filter` is taken by Mathlib. -/

namespace Maple

/-- `matcher::Bonus`, as far as `filter.rs` uses it. -/
inductive Bonus
  | None
  | FileName
  | RecentFiles (files : List String)
deriving DecidableEq, Repr

/-- `matcher::FuzzyAlgorithm` (only carried through by `Filter`). -/
inductive FuzzyAlgorithm
  | fzy
  | skim
  | substring
deriving DecidableEq, Repr

/-- `matcher::MatchScope` (only carried through by `Filter`). -/
inductive MatchScope
  | full
  | fileName
  | grepLine
  | tagName
deriving DecidableEq, Repr

/-- Model of Rust's `str::to_lowercase` as used by `parse_bonus`:
character-wise lowercasing (faithful on ASCII, which covers the literal
`"filename"` the result is compared against). -/
def strToLower (s : String) : String :=
  String.mk (s.data.map Char.toLower)

/-- Embedding of `parse_bonus` (filter.rs lines 15-21):
lowercase the argument and compare with "filename". -/
def parse_bonus (s : String) : Bonus :=
  if strToLower s = "filename" then Bonus.FileName else Bonus.None

/-- The `Filter` clap struct; paths (`PathBuf`, `AbsPathBuf`) are strings. -/
structure Filter where
  query : String
  algo : FuzzyAlgorithm
  cmd : Option String
  cmd_dir : Option String
  recent_files : Option String
  input : Option String
  match_scope : MatchScope
  bonus : Bonus
  sync : Bool
  par_run : Bool
deriving DecidableEq, Repr

/-- `filter::Source`, restricted to the variants `generate_source`
produces: `Exec` carries the shell command and the optional cwd. -/
inductive Source
  | stdin
  | file (path : String)
  | exec (cmd : String) (cwd : Option String)
deriving DecidableEq, Repr

/-- `filter::ParSource`. -/
inductive ParSource
  | exec (cmd : String) (cwd : Option String)
  | file (path : String)
deriving DecidableEq, Repr

/-- Embedding of `Filter::generate_source` (filter.rs lines 66-81):
first the shell command (with `cmd_dir` as cwd when present), then the
input file, finally stdin. -/
def Filter.generate_source (f : Filter) : Source :=
  match f.cmd with
  | some cmd_str =>
      match f.cmd_dir with
      | some dir => Source.exec cmd_str (some dir)
      | none => Source.exec cmd_str none
  | none => (f.input.map fun i => Source.file i).getD Source.stdin

/-- The message of the `.expect(..)` in `generate_par_source`. -/
def parSourcePanicMsg : String := "Only File and Exec source can be parallel"

/-- Embedding of `Filter::generate_par_source` (filter.rs lines 83-99).
The Rust function panics via `.expect` when neither `--cmd` nor `--input`
is given; the panic is modelled as `Except.error` carrying the expect
message. -/
def Filter.generate_par_source (f : Filter) : Except String ParSource :=
  match f.cmd with
  | some cmd_str =>
      match f.cmd_dir with
      | some dir => Except.ok (ParSource.exec cmd_str (some dir))
      | none => Except.ok (ParSource.exec cmd_str none)
  | none =>
      match f.input with
      | some i => Except.ok (ParSource.file i)
      | none => Except.error parSourcePanicMsg

/-- Embedding of `Filter::get_bonuses` (filter.rs lines 101-117).
`fs` models the filesystem: `fs p = none` means `File::open` failed
(missing or unreadable file), `fs p = some lines` gives the
`io::Result<String>` of each line (`none` = an unreadable line, skipped by
`filter_map(|x| x.ok())`). -/
def Filter.get_bonuses (f : Filter)
    (fs : String → Option (List (Option String))) : List Bonus :=
  let bonuses := [f.bonus]
  match f.recent_files with
  | none => bonuses
  | some p =>
      match fs p with
      | none => bonuses
      | some lines => bonuses ++ [Bonus.RecentFiles (lines.filterMap id)]

/-- The filtering action `Filter::run` dispatches to; matcher construction
and printing are outside the modelled claims. -/
inductive RunOutcome
  | syncRun (src : Source)
  | parRun (src : ParSource)
  | dynRun (src : Source)
deriving DecidableEq, Repr

/-- Embedding of the source-selection dispatch of `Filter::run`
(filter.rs lines 119-155): `--sync` takes priority, then `--par-run`
(whose `generate_par_source` may panic), else the dynamic driver. -/
def Filter.run (f : Filter) : Except String RunOutcome :=
  if f.sync then Except.ok (RunOutcome.syncRun f.generate_source)
  else if f.par_run then
    match f.generate_par_source with
    | .ok s => Except.ok (RunOutcome.parRun s)
    | .error e => Except.error e
  else Except.ok (RunOutcome.dynRun f.generate_source)

end Maple

/-! ## Session event loops (session/mod.rs lines 126-262)

`ProviderEvent` mirrors the Rust enum; the `MethodCall` / `Call` payloads
are opaque `Nat` tokens.  An `Invocation` records one execution of a
provider handler (or of `handle_terminate`), in order; for the fallible
handlers it also records whether the handler returned `Ok`. -/

/-- The `ProviderEvent` enum of session/mod.rs. -/
inductive ProviderEvent
  | onTyped (msg : Nat)
  | onMove (msg : Nat)
  | create (call : Nat)
  | terminate
deriving DecidableEq, Repr

/-- One handler execution performed by an event loop, in execution order.
`ok` is the `Result` the handler returned (the loop only logs an `Err`). -/
inductive Invocation
  | createInv (call : Nat)
  | moveInv (msg : Nat) (ok : Bool)
  | typedInv (msg : Nat) (ok : Bool)
  | terminateInv
deriving DecidableEq, Repr

/-- Which handler ran and on which payload, forgetting the handler's
returned `Result`. -/
def Invocation.shape : Invocation → Nat × Nat
  | .createInv c => (0, c)
  | .moveInv m _ => (1, m)
  | .typedInv m _ => (2, m)
  | .terminateInv => (3, 0)

/-- `DELAY` of `run_event_loop_with_debounce`: 200 + 50 milliseconds. -/
def DELAY : Nat := 200 + 50

/-- `NEVER` of `run_event_loop_with_debounce`: 365 days, in milliseconds
(the Rust constant is `Duration::from_secs(365 * 24 * 60 * 60)`; this model
measures time in ms). -/
def NEVER : Nat := 365 * 24 * 60 * 60 * 1000

/-- State carried across iterations of the debounced loop: the
`pending_on_typed` slot, the debounce timer's absolute deadline (ms), and
the session context's `is_running` flag (the only piece of context state
the loop itself mutates, via `handle_terminate`). -/
structure DebounceState where
  pending : Option Nat
  deadline : Nat
  running : Bool
deriving DecidableEq, Repr

/-- Embedding of `ClapProvider::handle_terminate` (session/mod.rs lines
115-123): store `false` into the context's `is_running` flag.  It does not
touch the pending slot or the timer, and it does not break the loop. -/
def handle_terminate (s : DebounceState) : DebounceState :=
  { pending := s.pending, deadline := s.deadline, running := false }

/-- The debounce-timer arm of the `select!`: the timer branch is enabled
only `if pending_on_typed.is_some()`, and it completes when the deadline
has passed (`deadline ≤ t`, `t` the current time).  On firing: take the
pending message, reset the timer to `now + NEVER` (the timer fires at its
deadline, so `now` is the old deadline), and run `on_typed`, logging an
error.  When the `select!` has both arms ready the model lets the timer
win; no proved claim depends on that tie-break. -/
def fireIfDue (typedOk : Nat → Bool) (s : DebounceState) (t : Nat) :
    DebounceState × List Invocation :=
  match s.pending with
  | some m =>
      if s.deadline ≤ t then
        ({ pending := none, deadline := s.deadline + NEVER, running := s.running },
         [Invocation.typedInv m (typedOk m)])
      else (s, [])
  | none => (s, [])

/-- The event arm of the `select!` in `run_event_loop_with_debounce`:
`Terminate` runs `handle_terminate` (and nothing else — in particular no
`break`); `Create` awaits `on_create` inline; `OnMove` awaits `on_move`
inline, logging an error; `OnTyped` only replaces the pending slot and
resets the timer to `now + DELAY`, running no handler. -/
def handleEvent (moveOk : Nat → Bool) (s : DebounceState) (t : Nat) :
    ProviderEvent → DebounceState × List Invocation
  | .create c => (s, [Invocation.createInv c])
  | .onMove m => (s, [Invocation.moveInv m (moveOk m)])
  | .onTyped m =>
      ({ pending := some m, deadline := t + DELAY, running := s.running }, [])
  | .terminate => (handle_terminate s, [Invocation.terminateInv])

/-- One full iteration of the debounced loop at the arrival of a timed
event: first the timer fires if it is due (it can fire at most once, since
firing empties the pending slot), then the event is handled. -/
def debounceStep (typedOk moveOk : Nat → Bool) (s : DebounceState)
    (te : Nat × ProviderEvent) : DebounceState × List Invocation :=
  let p1 := fireIfDue typedOk s te.1
  let p2 := handleEvent moveOk p1.1 te.1 te.2
  (p2.1, p1.2 ++ p2.2)

/-- The debounced loop over a trace of timed inbound events
(time in ms, non-decreasing in any run of the real system). -/
def runDSteps (typedOk moveOk : Nat → Bool) :
    DebounceState → List (Nat × ProviderEvent) → DebounceState × List Invocation
  | s, [] => (s, [])
  | s, te :: rest =>
      let p := debounceStep typedOk moveOk s te
      let q := runDSteps typedOk moveOk p.1 rest
      (q.1, p.2 ++ q.2)

/-- After the last inbound event, the channel (modelled as never closing)
yields nothing more, so if a message is pending the timer is the only
ready arm and fires at its deadline. -/
def finalFire (typedOk : Nat → Bool) (s : DebounceState) :
    DebounceState × List Invocation :=
  match s.pending with
  | some m =>
      ({ pending := none, deadline := s.deadline + NEVER, running := s.running },
       [Invocation.typedInv m (typedOk m)])
  | none => (s, [])

/-- Embedding of `Session::run_event_loop_with_debounce` (session/mod.rs
lines 177-237) over a finite trace of timed events: process every inbound
event, then let a still-pending `OnTyped` fire.  Returns the final state
and every handler invocation, in order. -/
def run_event_loop_with_debounce (typedOk moveOk : Nat → Bool)
    (s : DebounceState) (tr : List (Nat × ProviderEvent)) :
    DebounceState × List Invocation :=
  let p := runDSteps typedOk moveOk s tr
  let q := finalFire typedOk p.1
  (q.1, p.2 ++ q.2)

/-- Embedding of `Session::run_event_loop_without_debounce` (session/mod.rs
lines 240-262): each event is awaited to completion before the next is
pulled; `OnTyped` and `OnMove` errors are logged and the loop continues;
`Terminate` runs `handle_terminate` and the loop continues until the
channel closes (end of trace).  The `Bool` is the context's `is_running`
flag. -/
def run_event_loop_without_debounce (typedOk moveOk : Nat → Bool) :
    Bool → List ProviderEvent → Bool × List Invocation
  | running, [] => (running, [])
  | running, e :: rest =>
      let p : Bool × Invocation :=
        match e with
        | .create c => (running, Invocation.createInv c)
        | .terminate => (false, Invocation.terminateInv)
        | .onMove m => (running, Invocation.moveInv m (moveOk m))
        | .onTyped m => (running, Invocation.typedInv m (typedOk m))
      let q := run_event_loop_without_debounce typedOk moveOk p.1 rest
      (q.1, p.2 :: q.2)

/-! ## The default `ClapProvider::on_create` (session/mod.rs lines 75-108) -/

/-- `TIMEOUT` of `on_create`: 300 milliseconds. -/
def TIMEOUT_MS : Nat := 300

/-- Result of `tokio::time::timeout(TIMEOUT, initialize(context)).await`:
`ok scale` for `Ok(Ok(scale))`, `err` for `Ok(Err(e))`, `timeout` for
`Err(Elapsed)`.  The `SourceScale` payload is opaque to `on_create`'s
branching and is modelled as a `Nat` token. -/
inductive InitResult
  | ok (scale : Nat)
  | err
  | timeout
deriving DecidableEq, Repr

/-- `RgTokioCommand::new(context.cwd)`: holds the cwd (paths are `Nat`
tokens here). -/
structure RgTokioCommand where
  cwd : Nat
deriving DecidableEq, Repr

/-- Modelled from the spec: `utility::calculate_hash` is not under `src/`;
the spec says a JobId is "a 64-bit hash, deterministic over the job's
input (e.g. cwd for a ripgrep warmer)".  It is modelled as a deterministic
(injective) function of the command's cwd. -/
def calculate_hash (cmd : RgTokioCommand) : Nat := cmd.cwd

/-- What `on_create` did, beyond updating the job registry. -/
inductive OnCreateAction
  | processScale (scale : Nat)
  | logError
  | spawnGrepCacheJob (job_id : Nat) (spawned : Bool)
  | nothing
deriving DecidableEq, Repr

/-- Embedding of the default `ClapProvider::on_create`: on `Ok(Ok(scale))`
call `process_source_scale`; on `Ok(Err(e))` only log; on timeout, iff the
provider id is "grep" or "live_grep", build the ripgrep command from the
session's cwd and `spawn_singleton_job` with its hash as job id (the `_`
arm only holds a TODO comment).  Returns the action taken and the job
registry afterwards. -/
def on_create (provider_id : String) (cwd : Nat) (r : InitResult)
    (jobs : Finset Nat) : OnCreateAction × Finset Nat :=
  match r with
  | .ok scale => (OnCreateAction.processScale scale, jobs)
  | .err => (OnCreateAction.logError, jobs)
  | .timeout =>
      if provider_id = "grep" ∨ provider_id = "live_grep" then
        let rg_cmd : RgTokioCommand := { cwd := cwd }
        let job_id := calculate_hash rg_cmd
        let p := spawn_singleton_job job_id jobs
        (OnCreateAction.spawnGrepCacheJob job_id p.1, p.2)
      else (OnCreateAction.nothing, jobs)

/-- The shape of an inbound event, mirroring `Invocation.shape`: in the
non-debounced loop every event gives rise to exactly one handler
invocation of the same shape. -/
def ProviderEvent.shape : ProviderEvent → Nat × Nat
  | .create c => (0, c)
  | .onMove m => (1, m)
  | .onTyped m => (2, m)
  | .terminate => (3, 0)

/-- Two consecutive timed `OnTyped` payloads belong to one debounce burst
when the second arrives no earlier, and strictly less than `DELAY`
milliseconds later. -/
def burstRel (a b : Nat × Nat) : Prop :=
  a.1 ≤ b.1 ∧ b.1 < a.1 + DELAY

instance (a b : Nat × Nat) : Decidable (burstRel a b) :=
  inferInstanceAs (Decidable (a.1 ≤ b.1 ∧ b.1 < a.1 + DELAY))

/-- A timed `OnTyped`-only trace built from timed payloads. -/
def typedTrace (l : List (Nat × Nat)) : List (Nat × ProviderEvent) :=
  l.map fun p => (p.1, ProviderEvent.onTyped p.2)

/-- A trace that ends with a `Terminate` followed by a later `OnMove`. -/
def trailAfterTerminate (pre : List (Nat × ProviderEvent)) (t t' m : Nat) :
    List (Nat × ProviderEvent) :=
  pre ++ [(t, ProviderEvent.terminate), (t', ProviderEvent.onMove m)]

/-! ## Lemmas -/

lemma jobStep_preserves_inv (s : JobsState) (st : JobStep)
    (h : JobsInv s) : JobsInv (jobStep s st) := by
  obtain ⟨hnd, hsub⟩ := h
  cases st with
  | spawn id =>
      simp only [jobStep, spawn_singleton_job, register_job_successfully]
      by_cases hmem : id ∈ s.jobs
      · simpa [hmem, JobsInv] using ⟨hnd, hsub⟩
      · have hact : id ∉ s.active := fun hc => hmem (hsub id hc)
        constructor
        · simpa [hmem] using ⟨hact, hnd⟩
        · intro i hi
          simp only [hmem, if_neg, if_pos] at hi ⊢
          rcases List.mem_cons.mp hi with h1 | h2
          · simp [h1]
          · exact Finset.mem_insert_of_mem (hsub i h2)
  | finish id panicked =>
      simp only [jobStep]
      by_cases hmem : id ∈ s.active
      · simp only [hmem, if_true]
        refine ⟨hnd.erase id, ?_⟩
        intro i hi
        have hi' : i ≠ id ∧ i ∈ s.active := (hnd.mem_erase_iff).mp hi
        cases panicked with
        | false =>
            simp only [run_spawned_task, note_job_is_finished,
              Bool.false_eq_true, if_false]
            exact Finset.mem_erase.mpr ⟨hi'.1, hsub i hi'.2⟩
        | true =>
            simpa [run_spawned_task] using hsub i hi'.2
      · simpa [hmem, JobsInv] using ⟨hnd, hsub⟩

lemma foldl_jobStep_inv (steps : List JobStep) (s : JobsState)
    (h : JobsInv s) : JobsInv (steps.foldl jobStep s) := by
  induction steps generalizing s with
  | nil => exact h
  | cons st rest ih => exact ih _ (jobStep_preserves_inv s st h)

lemma runJobSteps_inv (steps : List JobStep) : JobsInv (runJobSteps steps) := by
  refine foldl_jobStep_inv steps initialJobsState ?_
  exact ⟨List.nodup_nil, fun i hi => absurd hi (List.not_mem_nil i)⟩

lemma fireIfDue_running (tOk : Nat → Bool) (s : DebounceState) (t : Nat) :
    ((fireIfDue tOk s t).1).running = s.running := by
  obtain ⟨p, d, r⟩ := s
  cases p with
  | none => rfl
  | some m =>
      unfold fireIfDue
      dsimp only
      split <;> rfl

lemma finalFire_running (tOk : Nat → Bool) (s : DebounceState) :
    ((finalFire tOk s).1).running = s.running := by
  obtain ⟨p, d, r⟩ := s
  cases p <;> rfl

lemma handleEvent_running_false (moveOk : Nat → Bool) (s : DebounceState)
    (t : Nat) (e : ProviderEvent) (h : s.running = false) :
    ((handleEvent moveOk s t e).1).running = false := by
  cases e <;> simp [handleEvent, handle_terminate, h]

lemma debounceStep_running_false (typedOk moveOk : Nat → Bool)
    (s : DebounceState) (te : Nat × ProviderEvent) (h : s.running = false) :
    ((debounceStep typedOk moveOk s te).1).running = false := by
  unfold debounceStep
  exact handleEvent_running_false moveOk _ te.1 te.2
    ((fireIfDue_running typedOk s te.1).trans h)

lemma runDSteps_running_false (typedOk moveOk : Nat → Bool)
    (tr : List (Nat × ProviderEvent)) (s : DebounceState)
    (h : s.running = false) :
    ((runDSteps typedOk moveOk s tr).1).running = false := by
  induction tr generalizing s with
  | nil => exact h
  | cons te rest ih =>
      exact ih _ (debounceStep_running_false typedOk moveOk s te h)

lemma runDSteps_append (typedOk moveOk : Nat → Bool)
    (xs ys : List (Nat × ProviderEvent)) (s : DebounceState) :
    runDSteps typedOk moveOk s (xs ++ ys)
      = ((runDSteps typedOk moveOk (runDSteps typedOk moveOk s xs).1 ys).1,
         (runDSteps typedOk moveOk s xs).2
           ++ (runDSteps typedOk moveOk (runDSteps typedOk moveOk s xs).1 ys).2) := by
  induction xs generalizing s with
  | nil => simp [runDSteps]
  | cons te rest ih =>
      simp only [List.cons_append, runDSteps, List.append_eq, ih,
        List.append_assoc]

lemma runDSteps_term_move (typedOk moveOk : Nat → Bool) (t t' m : Nat)
    (s : DebounceState) :
    (((runDSteps typedOk moveOk s
        [(t, ProviderEvent.terminate), (t', ProviderEvent.onMove m)]).1).running = false)
    ∧ Invocation.terminateInv
        ∈ (runDSteps typedOk moveOk s
            [(t, ProviderEvent.terminate), (t', ProviderEvent.onMove m)]).2
    ∧ Invocation.moveInv m (moveOk m)
        ∈ (runDSteps typedOk moveOk s
            [(t, ProviderEvent.terminate), (t', ProviderEvent.onMove m)]).2 := by
  obtain ⟨p, d, r⟩ := s
  cases p with
  | none =>
      simp [runDSteps, debounceStep, fireIfDue, handleEvent, handle_terminate]
  | some m0 =>
      by_cases h1 : d ≤ t <;>
        by_cases h2 : d ≤ t' <;>
          simp [runDSteps, debounceStep, fireIfDue, handleEvent,
            handle_terminate, h1, h2]

lemma fireIfDue_oracle (tOk tOk' : Nat → Bool) (s : DebounceState) (t : Nat) :
    (fireIfDue tOk s t).1 = (fireIfDue tOk' s t).1
    ∧ (fireIfDue tOk s t).2.map Invocation.shape
        = (fireIfDue tOk' s t).2.map Invocation.shape := by
  obtain ⟨p, d, r⟩ := s
  cases p with
  | none => exact ⟨rfl, rfl⟩
  | some m =>
      unfold fireIfDue
      dsimp only
      split <;> exact ⟨rfl, rfl⟩

lemma handleEvent_oracle (moveOk moveOk' : Nat → Bool) (s : DebounceState)
    (t : Nat) (e : ProviderEvent) :
    (handleEvent moveOk s t e).1 = (handleEvent moveOk' s t e).1
    ∧ (handleEvent moveOk s t e).2.map Invocation.shape
        = (handleEvent moveOk' s t e).2.map Invocation.shape := by
  cases e <;> exact ⟨rfl, rfl⟩

lemma runDSteps_oracle (tOk mOk tOk' mOk' : Nat → Bool)
    (tr : List (Nat × ProviderEvent)) (s : DebounceState) :
    (runDSteps tOk mOk s tr).1 = (runDSteps tOk' mOk' s tr).1
    ∧ (runDSteps tOk mOk s tr).2.map Invocation.shape
        = (runDSteps tOk' mOk' s tr).2.map Invocation.shape := by
  induction tr generalizing s with
  | nil => exact ⟨rfl, rfl⟩
  | cons te rest ih =>
      obtain ⟨hf1, hf2⟩ := fireIfDue_oracle tOk tOk' s te.1
      obtain ⟨hh1, hh2⟩ := handleEvent_oracle mOk mOk' (fireIfDue tOk s te.1).1 te.1 te.2
      rw [hf1] at hh1 hh2
      obtain ⟨hr1, hr2⟩ := ih (handleEvent mOk' (fireIfDue tOk' s te.1).1 te.1 te.2).1
      constructor
      · simp only [runDSteps, debounceStep, hf1, hh1, hr1]
      · simp only [runDSteps, debounceStep, List.map_append, hf1, hf2]
        rw [hh2, hh1, hr2]

lemma finalFire_oracle (tOk tOk' : Nat → Bool) (s : DebounceState) :
    (finalFire tOk s).1 = (finalFire tOk' s).1
    ∧ (finalFire tOk s).2.map Invocation.shape
        = (finalFire tOk' s).2.map Invocation.shape := by
  obtain ⟨p, d, r⟩ := s
  cases p <;> exact ⟨rfl, rfl⟩

lemma burst_aux (tOk mOk : Nat → Bool) (l : List (Nat × Nat)) :
    ∀ (t0 m0 : Nat) (r : Bool),
      List.Chain' burstRel ((t0, m0) :: l) →
      runDSteps tOk mOk
          { pending := some m0, deadline := t0 + DELAY, running := r }
          (typedTrace l)
        = ({ pending := some (l.getLastD (t0, m0)).2,
             deadline := (l.getLastD (t0, m0)).1 + DELAY, running := r }, []) := by
  induction l with
  | nil => intro t0 m0 r _; rfl
  | cons hd tl ih =>
      intro t0 m0 r hchain
      obtain ⟨t1, m1⟩ := hd
      have h01 : burstRel (t0, m0) (t1, m1) :=
        (List.chain'_cons.mp hchain).1
      have htl : List.Chain' burstRel ((t1, m1) :: tl) :=
        (List.chain'_cons.mp hchain).2
      have hnotdue : ¬ t0 + DELAY ≤ t1 := by
        have := h01.2
        omega
      simp only [typedTrace, List.map_cons, runDSteps, debounceStep,
        fireIfDue, hnotdue, if_false, handleEvent, List.nil_append]
      have := ih t1 m1 r htl
      simp only [typedTrace] at this
      simp only [this, List.getLastD_cons, List.append_nil]

/-! ## Claim theorems -/

/-- C1, counterexample: in the debounced loop the `Terminate` arm only
calls `handle_terminate`; it does not `break`.  On the concrete trace
[Terminate at 0 ms, OnMove 7 at 1 ms] the loop therefore still runs the
`on_move` handler for the event that arrived after `Terminate`, refuting
the claim that no handler executes for any event after a Terminate. -/
theorem debounce_onMove_handled_after_terminate :
    (run_event_loop_with_debounce (fun _ => true) (fun _ => true)
        { pending := none, deadline := NEVER, running := true }
        [(0, ProviderEvent.terminate), (1, ProviderEvent.onMove 7)]).2
      = [Invocation.terminateInv, Invocation.moveInv 7 true]
    ∧ ((run_event_loop_with_debounce (fun _ => true) (fun _ => true)
        { pending := none, deadline := NEVER, running := true }
        [(0, ProviderEvent.terminate), (1, ProviderEvent.onMove 7)]).1).running
      = false :=
  ⟨rfl, rfl⟩

/-- C1, amended: receiving `Terminate` sets the running flag to false (and
nothing later resets it), but the loop does not break — it only exits when
the event channel closes — so handlers still execute for events that
arrive after a Terminate: on any trace ending with a Terminate followed by
an OnMove, the final running flag is false, the `handle_terminate`
invocation occurs, and the `on_move` handler still runs. -/
theorem debounce_terminate_sets_flag_but_loop_continues
    (tOk mOk : Nat → Bool) (s : DebounceState)
    (pre : List (Nat × ProviderEvent)) (t t' m : Nat) :
    ((run_event_loop_with_debounce tOk mOk s (trailAfterTerminate pre t t' m)).1).running
      = false
    ∧ Invocation.terminateInv
        ∈ (run_event_loop_with_debounce tOk mOk s (trailAfterTerminate pre t t' m)).2
    ∧ Invocation.moveInv m (mOk m)
        ∈ (run_event_loop_with_debounce tOk mOk s (trailAfterTerminate pre t t' m)).2 := by
  have happ := runDSteps_append tOk mOk pre
    [(t, ProviderEvent.terminate), (t', ProviderEvent.onMove m)] s
  obtain ⟨hrun, hterm, hmove⟩ :=
    runDSteps_term_move tOk mOk t t' m (runDSteps tOk mOk s pre).1
  unfold run_event_loop_with_debounce trailAfterTerminate
  rw [happ]
  refine ⟨?_, ?_, ?_⟩
  · rw [finalFire_running]
    exact hrun
  · simp only [List.mem_append]
    exact Or.inl (Or.inr hterm)
  · simp only [List.mem_append]
    exact Or.inl (Or.inr hmove)

/-- C2, counterexample: `spawn_singleton_job`'s task body is
`task_future.await; note_job_is_finished(job_id)` with no guard, so a
panicking future skips the removal: spawning job 42 on an empty registry
and letting its future panic leaves 42 registered, and a later
`spawn_singleton_job` with id 42 does not spawn again — refuting the claim
that the teardown still removes the id on panic. -/
theorem spawn_singleton_job_panic_leaks_id :
    42 ∈ run_spawned_task 42 TaskOutcome.panics (spawn_singleton_job 42 ∅).2
    ∧ (spawn_singleton_job 42
        (run_spawned_task 42 TaskOutcome.panics (spawn_singleton_job 42 ∅).2)).1
      = false := by
  decide

/-- C2, amended: on normal completion of the future the task removes the
id from the background-jobs set, so a later `spawn_singleton_job` with the
same id spawns again; but if the future panics, `note_job_is_finished` is
never reached, the id stays registered, and later calls with that id drop
their future instead of spawning. -/
theorem spawn_singleton_job_teardown_only_on_completion
    (id : Nat) (jobs : Finset Nat) :
    run_spawned_task id TaskOutcome.completes jobs = jobs.erase id
    ∧ run_spawned_task id TaskOutcome.panics jobs = jobs
    ∧ (spawn_singleton_job id
        (run_spawned_task id TaskOutcome.panics (spawn_singleton_job id jobs).2)).1
      = false
    ∧ (id ∉ jobs →
        (spawn_singleton_job id
            (run_spawned_task id TaskOutcome.completes (spawn_singleton_job id jobs).2)).1
          = true) := by
  refine ⟨rfl, rfl, ?_, ?_⟩
  · by_cases h : id ∈ jobs <;>
      simp [spawn_singleton_job, register_job_successfully, run_spawned_task, h]
  · intro h
    simp [spawn_singleton_job, register_job_successfully, run_spawned_task,
      note_job_is_finished, h, Finset.erase_insert h]

/-- C2, amended, witness at id 7 on the empty registry. -/
theorem spawn_singleton_job_teardown_witness :
    (7 : Nat) ∉ (∅ : Finset Nat)
    ∧ (spawn_singleton_job 7
        (run_spawned_task 7 TaskOutcome.completes (spawn_singleton_job 7 ∅).2)).1
      = true :=
  ⟨by decide,
   (spawn_singleton_job_teardown_only_on_completion 7 ∅).2.2.2 (by decide)⟩

/-- C3: `register_job_successfully id` returns true iff `id` was absent,
and `id` is in the registry afterwards in either case;
`spawn_singleton_job` spawns a task exactly when registration succeeded
(otherwise the future is dropped and the active set is unchanged); normal
completion removes the id; over any step sequence from the initial state
at most one task per id is active; and after a normal completion a new
spawn with the same id succeeds again. -/
theorem singleton_job_registry (id : Nat) (jobs : Finset Nat)
    (s : JobsState) (steps : List JobStep) :
    ((register_job_successfully id jobs).1 = true ↔ id ∉ jobs)
    ∧ id ∈ (register_job_successfully id jobs).2
    ∧ spawn_singleton_job id jobs = register_job_successfully id jobs
    ∧ (jobStep s (JobStep.spawn id)).active
        = (if (spawn_singleton_job id s.jobs).1 then id :: s.active else s.active)
    ∧ run_spawned_task id TaskOutcome.completes jobs = note_job_is_finished id jobs
    ∧ (∀ i : Nat, (runJobSteps steps).active.count i ≤ 1)
    ∧ (id ∈ (runJobSteps steps).active →
        (jobStep (runJobSteps steps) (JobStep.finish id false)).jobs
            = (runJobSteps steps).jobs.erase id
          ∧ (spawn_singleton_job id
              (jobStep (runJobSteps steps) (JobStep.finish id false)).jobs).1
            = true) := by
  refine ⟨?_, ?_, rfl, rfl, rfl, ?_, ?_⟩
  · by_cases h : id ∈ jobs <;> simp [register_job_successfully, h]
  · by_cases h : id ∈ jobs <;> simp [register_job_successfully, h]
  · intro i
    exact List.nodup_iff_count_le_one.mp (runJobSteps_inv steps).1 i
  · intro hmem
    have hjobs : (jobStep (runJobSteps steps) (JobStep.finish id false)).jobs
        = (runJobSteps steps).jobs.erase id := by
      simp [jobStep, hmem, run_spawned_task, note_job_is_finished]
    refine ⟨hjobs, ?_⟩
    rw [hjobs]
    simp [spawn_singleton_job, register_job_successfully, Finset.not_mem_erase]

/-- C3, witness: spawn job 1 from the initial state; it is active, and
after a normal completion a fresh spawn with id 1 succeeds. -/
theorem singleton_job_registry_witness :
    1 ∈ (runJobSteps [JobStep.spawn 1]).active
    ∧ (spawn_singleton_job 1
        (jobStep (runJobSteps [JobStep.spawn 1]) (JobStep.finish 1 false)).jobs).1
      = true :=
  ⟨by decide,
   ((singleton_job_registry 1 ∅ initialJobsState [JobStep.spawn 1]).2.2.2.2.2.2
      (by decide)).2⟩

/-- C4: an `OnTyped` event overwrites the single pending slot and resets
the timer to `now + DELAY`; when the timer fires it takes the pending
message, resets the deadline by `NEVER` (the ~1-year sentinel) and runs
`on_typed` once; consequently a non-empty burst of OnTyped events, each
arriving within `DELAY` = 250 ms of the previous one, produces exactly one
handler invocation, carrying the last payload. -/
theorem debounce_burst_collapses_to_last (tOk mOk : Nat → Bool) (r : Bool)
    (d0 t0 m0 : Nat) (l : List (Nat × Nat))
    (hchain : List.Chain' burstRel ((t0, m0) :: l)) :
    (run_event_loop_with_debounce tOk mOk
        { pending := none, deadline := d0, running := r }
        (typedTrace ((t0, m0) :: l))).2
      = [Invocation.typedInv (l.getLastD (t0, m0)).2 (tOk (l.getLastD (t0, m0)).2)]
    ∧ (∀ (s : DebounceState) (tt msg : Nat),
        handleEvent mOk s tt (ProviderEvent.onTyped msg)
          = ({ pending := some msg, deadline := tt + DELAY, running := s.running }, []))
    ∧ (∀ (msg dl tt : Nat) (rr : Bool),
        fireIfDue tOk { pending := some msg, deadline := dl, running := rr } tt
          = if dl ≤ tt then
              ({ pending := none, deadline := dl + NEVER, running := rr },
               [Invocation.typedInv msg (tOk msg)])
            else ({ pending := some msg, deadline := dl, running := rr }, []))
    ∧ DELAY = 250 ∧ NEVER = 31536000000 := by
  refine ⟨?_, fun s tt msg => rfl, fun msg dl tt rr => rfl, rfl, rfl⟩
  have haux := burst_aux tOk mOk l t0 m0 r hchain
  have h1 : runDSteps tOk mOk { pending := none, deadline := d0, running := r }
      (typedTrace ((t0, m0) :: l))
      = ({ pending := some (l.getLastD (t0, m0)).2,
           deadline := (l.getLastD (t0, m0)).1 + DELAY, running := r }, []) := by
    simp only [typedTrace, List.map_cons, runDSteps, debounceStep, fireIfDue,
      handleEvent, List.nil_append]
    simp only [typedTrace] at haux
    simp [haux]
  simp only [run_event_loop_with_debounce, h1, finalFire, List.nil_append]

/-- C4, witness: the burst OnTyped(1)@0ms, OnTyped(2)@100ms, OnTyped(3)@200ms
is within the debounce window pairwise and produces the single invocation
`on_typed 3`. -/
theorem debounce_burst_witness :
    List.Chain' burstRel [(0, 1), (100, 2), (200, 3)]
    ∧ (run_event_loop_with_debounce (fun _ => true) (fun _ => true)
        { pending := none, deadline := NEVER, running := true }
        (typedTrace [(0, 1), (100, 2), (200, 3)])).2
      = [Invocation.typedInv 3 true] :=
  ⟨List.chain'_cons.mpr ⟨by decide,
     List.chain'_cons.mpr ⟨by decide, List.chain'_singleton _⟩⟩,
   (debounce_burst_collapses_to_last (fun _ => true) (fun _ => true) true NEVER
      0 1 [(100, 2), (200, 3)]
      (List.chain'_cons.mpr ⟨by decide,
        List.chain'_cons.mpr ⟨by decide, List.chain'_singleton _⟩⟩)).1⟩

/-- C5: `on_create` awaits `initialize` under a 300 ms timeout; on
`Ok(Ok(scale))` it processes the source scale, on `Ok(Err(e))` it only
logs, and on timeout it spawns the singleton ripgrep cache-warming job
(id = hash of the command built from the session's cwd) exactly when the
provider id is "grep" or "live_grep", doing nothing for every other id. -/
theorem on_create_timeout_grep_warmup (p : String) (cwd scale : Nat)
    (jobs : Finset Nat) :
    on_create p cwd (InitResult.ok scale) jobs
        = (OnCreateAction.processScale scale, jobs)
    ∧ on_create p cwd InitResult.err jobs = (OnCreateAction.logError, jobs)
    ∧ ((p = "grep" ∨ p = "live_grep") ↔
        on_create p cwd InitResult.timeout jobs
          = (OnCreateAction.spawnGrepCacheJob (calculate_hash { cwd := cwd })
               (spawn_singleton_job (calculate_hash { cwd := cwd }) jobs).1,
             (spawn_singleton_job (calculate_hash { cwd := cwd }) jobs).2))
    ∧ (¬ (p = "grep" ∨ p = "live_grep") ↔
        on_create p cwd InitResult.timeout jobs = (OnCreateAction.nothing, jobs))
    ∧ TIMEOUT_MS = 300 := by
  refine ⟨rfl, rfl, ?_, ?_, rfl⟩ <;>
    by_cases h : p = "grep" ∨ p = "live_grep" <;>
      simp [on_create, h]

/-- C6: the filter subcommand run with `--par-run` (and without `--sync`)
but with neither `--cmd` nor `--input` reaches the `.expect` panic in
`generate_par_source`; every other `--par-run` invocation returns
`ParSource::Exec` when `--cmd` is given and `ParSource::File` otherwise. -/
theorem generate_par_source_panics_without_cmd_or_input (f : Maple.Filter)
    (q : String) (a : Maple.FuzzyAlgorithm) (d rf : Option String)
    (ms : Maple.MatchScope) (b : Maple.Bonus) (c i : String) :
    Maple.Filter.run
        { query := q, algo := a, cmd := none, cmd_dir := d, recent_files := rf,
          input := none, match_scope := ms, bonus := b, sync := false,
          par_run := true }
      = Except.error Maple.parSourcePanicMsg
    ∧ (f.cmd = none → f.input = none →
        f.generate_par_source = Except.error Maple.parSourcePanicMsg)
    ∧ (f.cmd = some c →
        f.generate_par_source = Except.ok (Maple.ParSource.exec c f.cmd_dir))
    ∧ (f.cmd = none → f.input = some i →
        f.generate_par_source = Except.ok (Maple.ParSource.file i)) := by
  obtain ⟨fq, fa, fc, fd, frf, fi, fms, fb, fsy, fpr⟩ := f
  refine ⟨rfl, ?_, ?_, ?_⟩
  · intro h1 h2
    simp only at h1 h2
    subst h1; subst h2
    rfl
  · intro h1
    simp only at h1
    subst h1
    cases fd <;> rfl
  · intro h1 h2
    simp only at h1 h2
    subst h1; subst h2
    rfl

/-- C6, witness: with `--cmd rg` (no `--input`) the parallel source is
`Exec`, and with `--input` only it is `File`. -/
theorem generate_par_source_witness :
    ({ query := "q", algo := Maple.FuzzyAlgorithm.fzy, cmd := some "rg --files",
       cmd_dir := none, recent_files := none, input := none,
       match_scope := Maple.MatchScope.full, bonus := Maple.Bonus.None,
       sync := false, par_run := true } : Maple.Filter).generate_par_source
      = Except.ok (Maple.ParSource.exec "rg --files" none) :=
  (generate_par_source_panics_without_cmd_or_input
      { query := "q", algo := Maple.FuzzyAlgorithm.fzy, cmd := some "rg --files",
        cmd_dir := none, recent_files := none, input := none,
        match_scope := Maple.MatchScope.full, bonus := Maple.Bonus.None,
        sync := false, par_run := true }
      "q" Maple.FuzzyAlgorithm.fzy none none Maple.MatchScope.full
      Maple.Bonus.None "rg --files" "/tmp/x").2.2.1 rfl

/-- C7: `generate_source` picks the candidate source with fixed priority:
`--cmd` wins (with `--cmd-dir` as cwd when present) even when `--input` is
also given; otherwise `--input` gives a File source; otherwise Stdin. -/
theorem generate_source_priority (f : Maple.Filter) (c i : String) :
    (f.cmd = some c → f.generate_source = Maple.Source.exec c f.cmd_dir)
    ∧ (f.cmd = none → f.input = some i → f.generate_source = Maple.Source.file i)
    ∧ (f.cmd = none → f.input = none → f.generate_source = Maple.Source.stdin) := by
  obtain ⟨fq, fa, fc, fd, frf, fi, fms, fb, fsy, fpr⟩ := f
  refine ⟨?_, ?_, ?_⟩
  · intro h1
    simp only at h1
    subst h1
    cases fd <;> rfl
  · intro h1 h2
    simp only at h1 h2
    subst h1; subst h2
    rfl
  · intro h1 h2
    simp only at h1 h2
    subst h1; subst h2
    rfl

/-- C7, witness: `--cmd ls --cmd-dir /tmp` with an `--input` also present
still selects the Exec source. -/
theorem generate_source_priority_witness :
    ({ query := "q", algo := Maple.FuzzyAlgorithm.fzy, cmd := some "ls",
       cmd_dir := some "/tmp", recent_files := none, input := some "/x",
       match_scope := Maple.MatchScope.full, bonus := Maple.Bonus.None,
       sync := false, par_run := false } : Maple.Filter).generate_source
      = Maple.Source.exec "ls" (some "/tmp") :=
  (generate_source_priority
      { query := "q", algo := Maple.FuzzyAlgorithm.fzy, cmd := some "ls",
        cmd_dir := some "/tmp", recent_files := none, input := some "/x",
        match_scope := Maple.MatchScope.full, bonus := Maple.Bonus.None,
        sync := false, par_run := false }
      "ls" "/x").1 rfl

/-- C8: in both event loops, which handlers run, in which order and with
which payloads, does not depend on whether `on_typed` / `on_move` return
`Ok` or `Err` (the loop only logs the error and continues); in the
non-debounced loop every inbound event, including those after a failing
handler, yields exactly its own handler invocation. -/
theorem handler_error_never_terminates_loop (tOk mOk tOk' mOk' : Nat → Bool)
    (running : Bool) (events : List ProviderEvent) (s : DebounceState)
    (dtr : List (Nat × ProviderEvent)) :
    (run_event_loop_without_debounce tOk mOk running events).2.map Invocation.shape
      = events.map ProviderEvent.shape
    ∧ (run_event_loop_with_debounce tOk mOk s dtr).2.map Invocation.shape
        = (run_event_loop_with_debounce tOk' mOk' s dtr).2.map Invocation.shape := by
  constructor
  · induction events generalizing running with
    | nil => rfl
    | cons e rest ih =>
        cases e <;>
          simp [run_event_loop_without_debounce, Invocation.shape,
            ProviderEvent.shape, ih]
  · obtain ⟨hr1, hr2⟩ := runDSteps_oracle tOk mOk tOk' mOk' dtr s
    obtain ⟨hf1, hf2⟩ := finalFire_oracle tOk tOk' (runDSteps tOk' mOk' s dtr).1
    simp only [run_event_loop_with_debounce, List.map_append, hr2]
    rw [hr1, hf2]

/-- C9: `get_bonuses` returns the `--bonus` bonus alone when
`--recent-files` is absent or the file cannot be opened; when the file
opens, unreadable lines are dropped and the remaining lines form a
`RecentFiles` bonus appended after the `--bonus` value. -/
theorem get_bonuses_ignores_unreadable_recent_files (f : Maple.Filter)
    (fs : String → Option (List (Option String)))
    (p : String) (lines : List (Option String)) :
    (f.recent_files = none → f.get_bonuses fs = [f.bonus])
    ∧ (f.recent_files = some p → fs p = none → f.get_bonuses fs = [f.bonus])
    ∧ (f.recent_files = some p → fs p = some lines →
        f.get_bonuses fs = [f.bonus, Maple.Bonus.RecentFiles (lines.filterMap id)]) := by
  obtain ⟨fq, fa, fc, fd, frf, fi, fms, fb, fsy, fpr⟩ := f
  refine ⟨?_, ?_, ?_⟩
  · intro h1
    simp only at h1
    subst h1
    rfl
  · intro h1 h2
    simp only at h1
    subst h1
    simp [Maple.Filter.get_bonuses, h2]
  · intro h1 h2
    simp only at h1
    subst h1
    simp [Maple.Filter.get_bonuses, h2]

/-- C9, witness: a recent-files file with one unreadable line contributes
the readable lines as a `RecentFiles` bonus after the `--bonus` value. -/
theorem get_bonuses_witness :
    ({ query := "q", algo := Maple.FuzzyAlgorithm.fzy, cmd := none,
       cmd_dir := none, recent_files := some "/r", input := none,
       match_scope := Maple.MatchScope.full, bonus := Maple.Bonus.FileName,
       sync := false, par_run := false } : Maple.Filter).get_bonuses
        (fun _ => some [some "/abs/a.txt", none, some "/abs/b.txt"])
      = [Maple.Bonus.FileName,
         Maple.Bonus.RecentFiles ["/abs/a.txt", "/abs/b.txt"]] :=
  (get_bonuses_ignores_unreadable_recent_files
      { query := "q", algo := Maple.FuzzyAlgorithm.fzy, cmd := none,
        cmd_dir := none, recent_files := some "/r", input := none,
        match_scope := Maple.MatchScope.full, bonus := Maple.Bonus.FileName,
        sync := false, par_run := false }
      (fun _ => some [some "/abs/a.txt", none, some "/abs/b.txt"])
      "/r" [some "/abs/a.txt", none, some "/abs/b.txt"]).2.2 rfl rfl

/-- C10: `parse_bonus` maps exactly the string "filename", compared
case-insensitively (via `to_lowercase`), to `Bonus::FileName`, and maps
every other string, including misspellings, silently to `Bonus::None`. -/
theorem parse_bonus_filename_case_insensitive :
    (∀ s : String,
      Maple.parse_bonus s = Maple.Bonus.FileName ↔ Maple.strToLower s = "filename")
    ∧ (∀ s : String,
        Maple.parse_bonus s = Maple.Bonus.FileName
          ∨ Maple.parse_bonus s = Maple.Bonus.None)
    ∧ Maple.parse_bonus "filename" = Maple.Bonus.FileName
    ∧ Maple.parse_bonus "FileName" = Maple.Bonus.FileName
    ∧ Maple.parse_bonus "FILENAME" = Maple.Bonus.FileName
    ∧ Maple.parse_bonus "filenam" = Maple.Bonus.None
    ∧ Maple.parse_bonus "filenames" = Maple.Bonus.None
    ∧ Maple.parse_bonus "" = Maple.Bonus.None := by
  refine ⟨?_, ?_, by decide, by decide, by decide, by decide, by decide, by decide⟩
  · intro s
    by_cases h : Maple.strToLower s = "filename" <;> simp [Maple.parse_bonus, h]
  · intro s
    by_cases h : Maple.strToLower s = "filename" <;> simp [Maple.parse_bonus, h]
